import Mathlib

/-!
Verification of the request admission & execution engine of `etcd-awx-sync`
(`src/request_queue.py`) and of its confirmation gate (`src/mcps/base.py`).

The Python code is shallowly embedded:

* `PlaybookRequest` becomes a Lean structure; the constructor side effects
  (`uuid.uuid4()`, `datetime.now()`) become explicit parameters (`id`,
  `submitted`), and timestamps are modelled as natural numbers.
* The mutable `RequestQueue` object becomes a state record; each operation of
  the Python class (`submit`, `cancel`, and the two halves of `_process_next`
  that run under the lock) becomes a pure state-transition function.  Python
  dicts become association lists with first-match lookup; Python object
  aliasing between `_all_requests` and the other collections is modelled by
  treating `_all_requests` as an arena that every status mutation also updates.
* `heapq` is modelled by an unordered pending list together with `popMin`,
  which removes a request whose `sort_key` is minimal in the lexicographic
  order used by the `@dataclass(order=True)` comparison (ties, whose order the
  Python heap leaves unspecified, are resolved to the leftmost minimum).
* The executor callback is modelled by an `ExecOutcome` value: a normal
  result, the missing-executor branch, or a raised exception carrying its
  message (the `except Exception` handler stores `str(e)`).
-/

/-- Priority levels for requests (`RequestPriority` in the source). -/
inductive RequestPriority
  | HIGH
  | NORMAL
  | LOW
deriving DecidableEq

/-- The numeric value of a priority: HIGH=1, NORMAL=2, LOW=3. -/
def RequestPriority.value : RequestPriority → Nat
  | .HIGH => 1
  | .NORMAL => 2
  | .LOW => 3

/-- The Python `priority.name` attribute. -/
def RequestPriority.name : RequestPriority → String
  | .HIGH => "HIGH"
  | .NORMAL => "NORMAL"
  | .LOW => "LOW"

/-- Status of a request (`RequestStatus` in the source). -/
inductive RequestStatus
  | QUEUED
  | RUNNING
  | COMPLETED
  | FAILED
  | DUPLICATE
  | CANCELLED
deriving DecidableEq

/-- The Python `status.value` string. -/
def RequestStatus.value : RequestStatus → String
  | .QUEUED => "queued"
  | .RUNNING => "running"
  | .COMPLETED => "completed"
  | .FAILED => "failed"
  | .DUPLICATE => "duplicate"
  | .CANCELLED => "cancelled"

/-- A request to run a playbook (`PlaybookRequest` in the source).
`sort_key` is the embedded comparison tuple `(priority.value, timestamp)`;
timestamps are naturals, `extra_vars` is an uninterpreted key/value list. -/
structure PlaybookRequest where
  sort_key : Nat × Nat
  id : String
  user_id : String
  user_name : String
  channel_id : String
  playbook : String
  inventory : String
  extra_vars : List (String × String) := []
  priority : RequestPriority := .NORMAL
  submitted_at : Nat := 0
  started_at : Option Nat := none
  completed_at : Option Nat := none
  status : RequestStatus := .QUEUED
  result : Option String := none
  error : Option String := none
  job_id : Option Nat := none
deriving DecidableEq

/-- Factory method `PlaybookRequest.create`: the fresh uuid and the
`datetime.now()` call are passed in as `id` and `submitted`. -/
def PlaybookRequest.create (id user_id user_name channel_id playbook inventory : String)
    (priority : RequestPriority) (submitted : Nat) : PlaybookRequest :=
  { sort_key := (priority.value, submitted)
    id := id
    user_id := user_id
    user_name := user_name
    channel_id := channel_id
    playbook := playbook
    inventory := inventory
    extra_vars := []
    priority := priority
    submitted_at := submitted }

/-- Key for deduplication: the playbook and the inventory joined by a colon. -/
def PlaybookRequest.dedup_key (r : PlaybookRequest) : String :=
  r.playbook ++ ":" ++ r.inventory

/-- Status emoji table used by `to_slack_message`. -/
def statusEmoji : RequestStatus → String
  | .QUEUED => "⏳"
  | .RUNNING => "🔄"
  | .COMPLETED => "✅"
  | .FAILED => "❌"
  | .DUPLICATE => "🔁"
  | .CANCELLED => "🚫"

/-- Format a request for display (`PlaybookRequest.to_slack_message`).
Python truthiness: the user-name suffix appears for a nonempty name, the
job suffix for a job id that is neither `None` nor `0`. -/
def PlaybookRequest.to_slack_message (r : PlaybookRequest) : String :=
  let msg := statusEmoji r.status ++ " `" ++ r.id ++ "` | " ++ r.playbook ++ " on " ++ r.inventory
  let msg := if r.user_name ≠ "" then msg ++ " | by @" ++ r.user_name else msg
  let msg := if r.status = RequestStatus.QUEUED then msg ++ " | Priority: " ++ r.priority.name else msg
  match r.job_id with
  | some j => if j ≠ 0 then msg ++ " | Job: " ++ toString j else msg
  | none => msg

/-- Lexicographic order on sort keys, as produced by the tuple comparison of
the `@dataclass(order=True)` record. -/
def keyLe (a b : Nat × Nat) : Prop :=
  a.1 < b.1 ∨ (a.1 = b.1 ∧ a.2 ≤ b.2)

instance (a b : Nat × Nat) : Decidable (keyLe a b) :=
  inferInstanceAs (Decidable (a.1 < b.1 ∨ (a.1 = b.1 ∧ a.2 ≤ b.2)))

/-- `heapq.heappop` on the pending list: remove a request whose `sort_key` is
minimal (the leftmost one among equal keys). -/
def popMin : List PlaybookRequest → Option (PlaybookRequest × List PlaybookRequest)
  | [] => none
  | r :: rs =>
    match popMin rs with
    | none => some (r, [])
    | some (m, rest) =>
      if keyLe r.sort_key m.sort_key then some (r, rs) else some (m, r :: rest)

/-! ## Association-list helpers for the Python dicts -/

/-- Lookup in `_all_requests` (`dict.get` / `in` / subscript). -/
def lookupReq (arena : List (String × PlaybookRequest)) (i : String) : Option PlaybookRequest :=
  (arena.find? (fun p => p.1 == i)).map (fun p => p.2)

/-- Dict assignment `arena[i] = r`: replace the entry if present, else append. -/
def setReq : List (String × PlaybookRequest) → String → PlaybookRequest →
    List (String × PlaybookRequest)
  | [], i, r => [(i, r)]
  | p :: rest, i, r => if p.1 == i then (i, r) :: rest else p :: setReq rest i r

/-- `self._user_requests[user_id].append(request_id)` on a `defaultdict(list)`. -/
def appendUser : List (String × List String) → String → String → List (String × List String)
  | [], uid, rid => [(uid, [rid])]
  | p :: rest, uid, rid =>
    if p.1 == uid then (p.1, p.2 ++ [rid]) :: rest else p :: appendUser rest uid rid

/-- `self._user_requests.get(user_id, [])`. -/
def lookupUser (us : List (String × List String)) (uid : String) : List String :=
  ((us.find? (fun p => p.1 == uid)).map (fun p => p.2)).getD []

/-! ## The request queue state -/

/-- The mutable state of `RequestQueue`: the pending priority structure, the
running map (dedup key to request), the bounded completed history, the
per-requester index and the id index.  The lock, the worker task handle and
the callbacks are concurrency plumbing with no bearing on the state. -/
structure RequestQueue where
  max_concurrent : Nat := 3
  pending : List PlaybookRequest := []
  running : List (String × PlaybookRequest) := []
  completed : List PlaybookRequest := []
  user_requests : List (String × List String) := []
  all_requests : List (String × PlaybookRequest) := []
deriving DecidableEq

/-- `RequestQueue.__init__`. -/
def RequestQueue.init (mc : Nat) : RequestQueue :=
  { max_concurrent := mc }

/-- `self._max_history = 100`. -/
def maxHistory : Nat := 100

/-- Rendering of the job reference with the starting placeholder: the Python
`or` expression treats both `None` and `0` as falsy. -/
def jobRefDisplay : Option Nat → String
  | some n => if n = 0 then "starting..." else toString n
  | none => "starting..."

/-- Plain rendering of the job id field: Python formats `None` as `None`. -/
def jobRefRaw : Option Nat → String
  | some n => toString n
  | none => "None"

/-- The rejection message built by `submit` when a RUNNING request holds the
same dedup key (request_queue.py lines 191-199), verbatim. -/
def runningDupMessage (running_req request : PlaybookRequest) : String :=
  "🔁 *Duplicate Request*\n\nThe same playbook is already running:\n• Playbook: `"
    ++ request.playbook
    ++ "`\n• Inventory: `"
    ++ request.inventory
    ++ "`\n• Started by: @"
    ++ running_req.user_name
    ++ "\n• Job ID: `"
    ++ jobRefDisplay running_req.job_id
    ++ "`\n\nWait for it to complete or check status with `job status "
    ++ jobRefRaw running_req.job_id
    ++ "`"

/-- The rejection message built by `submit` when a QUEUED request holds the
same dedup key (request_queue.py lines 205-212). -/
def queuedDupMessage (pending_req : PlaybookRequest) (position : Nat) : String :=
  "🔁 *Already Queued*\n\nThis playbook is already in the queue:\n• Request ID: `"
    ++ pending_req.id
    ++ "`\n• Submitted by: @"
    ++ pending_req.user_name
    ++ "\n• Position: "
    ++ toString position
    ++ "\n\nUse `queue status` to check progress."

/-- Acceptance message for a request that will start immediately. -/
def submittedMessage (request : PlaybookRequest) : String :=
  "🚀 *Request Submitted*\n\n• Request ID: `"
    ++ request.id
    ++ "`\n• Playbook: `"
    ++ request.playbook
    ++ "`\n• Inventory: `"
    ++ request.inventory
    ++ "`\n• Priority: `"
    ++ request.priority.name
    ++ "`\n\n⏳ Starting immediately..."

/-- Acceptance message for a request parked in the queue. -/
def queuedMessage (request : PlaybookRequest) (position running_count mc : Nat) : String :=
  "📋 *Request Queued*\n\n• Request ID: `"
    ++ request.id
    ++ "`\n• Playbook: `"
    ++ request.playbook
    ++ "`\n• Inventory: `"
    ++ request.inventory
    ++ "`\n• Priority: `"
    ++ request.priority.name
    ++ "`\n• Position in queue: `"
    ++ toString position
    ++ "`\n• Currently running: `"
    ++ toString running_count
    ++ "/"
    ++ toString mc
    ++ "`\n\nYou\x27ll be notified when it starts. Use `queue status` to check."

/-- `RequestQueue.submit`.  The whole body runs under the lock, so it is one
atomic transition.  The Python code also sets `request.status = DUPLICATE` on
the local request object of the caller in the rejection branches; that object is not stored
in any queue collection, so the rejected submission leaves the state intact. -/
def RequestQueue.submit (q : RequestQueue) (request : PlaybookRequest) :
    (Bool × String) × RequestQueue :=
  match q.running.find? (fun p => p.1 == request.dedup_key) with
  | some running_req => ((false, runningDupMessage running_req.2 request), q)
  | none =>
    match q.pending.find? (fun r => r.dedup_key == request.dedup_key) with
    | some pending_req =>
      ((false, queuedDupMessage pending_req
        (q.pending.findIdx (fun r => r.dedup_key == request.dedup_key) + 1)), q)
    | none =>
      let pending' := q.pending ++ [request]
      let position := pending'.length
      let running_count := q.running.length
      let q' : RequestQueue := { q with
        pending := pending'
        all_requests := setReq q.all_requests request.id request
        user_requests := appendUser q.user_requests request.user_id request.id }
      if position = 1 ∧ running_count < q.max_concurrent then
        ((true, submittedMessage request), q')
      else
        ((true, queuedMessage request position running_count q.max_concurrent), q')

/-- `RequestQueue.cancel`.  The removal from `_pending` is the Python list
comprehension filtering out the id (the subsequent `heapify` call only
restores heap shape, which the model does not track). -/
def RequestQueue.cancel (q : RequestQueue) (request_id user_id : String) :
    (Bool × String) × RequestQueue :=
  match lookupReq q.all_requests request_id with
  | none => ((false, "Request `" ++ request_id ++ "` not found."), q)
  | some request =>
    if request.user_id ≠ user_id then
      ((false, "You can only cancel your own requests."), q)
    else if request.status = RequestStatus.RUNNING then
      ((false, "Request `" ++ request_id ++ "` is already running. Cannot cancel."), q)
    else if request.status ≠ RequestStatus.QUEUED then
      ((false, "Request `" ++ request_id ++ "` is not in queue (status: "
        ++ request.status.value ++ ")."), q)
    else
      let request' := { request with status := RequestStatus.CANCELLED }
      ((true, "✅ Request `" ++ request_id ++ "` cancelled."), { q with
        pending := q.pending.filter (fun r => !(r.id == request_id))
        completed := q.completed ++ [request']
        all_requests := setReq q.all_requests request_id request' })

/-- What the locked first half of `_process_next` did on a tick. -/
inductive DequeueResult
  | atCapacity
  | empty
  | duplicateDiscarded (r : PlaybookRequest)
  | started (r : PlaybookRequest)
deriving DecidableEq

/-- The locked first half of `_process_next` (request_queue.py lines 338-358):
capacity check, pop of the minimal pending request, re-validation of the
dedup invariant against the running map, and the transition to RUNNING. -/
def RequestQueue.processNextDequeue (q : RequestQueue) (now : Nat) :
    DequeueResult × RequestQueue :=
  if q.max_concurrent ≤ q.running.length then (.atCapacity, q)
  else
    match popMin q.pending with
    | none => (.empty, q)
    | some (request, rest) =>
      match q.running.find? (fun p => p.1 == request.dedup_key) with
      | some _ =>
        let request' := { request with status := RequestStatus.DUPLICATE }
        (.duplicateDiscarded request', { q with
          pending := rest
          completed := q.completed ++ [request']
          all_requests := setReq q.all_requests request'.id request' })
      | none =>
        let request' := { request with
          status := RequestStatus.RUNNING, started_at := some now }
        (.started request', { q with
          pending := rest
          running := q.running ++ [(request'.dedup_key, request')]
          all_requests := setReq q.all_requests request'.id request' })

/-- Outcome of the executor call made outside the lock: a normal result
(message plus the optional job id extracted from `result.data`), the
missing-executor branch, or a raised exception carrying `str(e)`. -/
inductive ExecOutcome
  | ok (message : String) (job_id : Option Nat)
  | noExecutor
  | exn (err : String)

/-- `self._completed = self._completed[-self._max_history:]` behind its
length guard. -/
def trimHistory (l : List PlaybookRequest) : List PlaybookRequest :=
  if maxHistory < l.length then l.drop (l.length - maxHistory) else l

/-- The mutations recorded on a running request by the execution block and
the completion block of `_process_next`: the executor outcome (lines 389-399)
and the `completed_at` stamp (line 403). -/
def completionRecord (request : PlaybookRequest) (outcome : ExecOutcome)
    (now : Nat) : PlaybookRequest :=
  let r1 := match outcome with
    | .ok msg jid =>
      { request with result := some msg, status := RequestStatus.COMPLETED, job_id := jid }
    | .noExecutor =>
      { request with status := RequestStatus.FAILED, error := some "No executor configured" }
    | .exn e =>
      { request with status := RequestStatus.FAILED, error := some e }
  { r1 with completed_at := some now }

/-- The completion half of `_process_next` (request_queue.py lines 380-409):
record the executor outcome on the request, stamp `completed_at`, delete the
dedup key from the running map, append to history and trim it.  The `except`
handler absorbs the executor exception into the FAILED outcome, which is how
the worker loop survives it. -/
def RequestQueue.processNextComplete (q : RequestQueue) (key : String)
    (outcome : ExecOutcome) (now : Nat) : RequestQueue :=
  match q.running.find? (fun p => p.1 == key) with
  | none => q
  | some p =>
    let r2 := completionRecord p.2 outcome now
    { q with
      running := q.running.filter (fun pr => !(pr.1 == key))
      completed := trimHistory (q.completed ++ [r2])
      all_requests := setReq q.all_requests r2.id r2 }

/-- `request_ids[-10:]`. -/
def takeLast (n : Nat) (l : List String) : List String :=
  l.drop (l.length - n)

/-- The request lines rendered by `get_user_requests`: the last (at most) 10
ids of the requester's index, each resolved through the id index and rendered
with its current status, in the stored (oldest-first) order. -/
def RequestQueue.userRequestLines (q : RequestQueue) (user_id : String) : List String :=
  ((takeLast 10 (lookupUser q.user_requests user_id)).filterMap
    (lookupReq q.all_requests)).map PlaybookRequest.to_slack_message

/-- `RequestQueue.get_user_requests`: a read-only operation; the returned
state is the untouched input state. -/
def RequestQueue.get_user_requests (q : RequestQueue) (user_id : String) :
    String × RequestQueue :=
  let request_ids := lookupUser q.user_requests user_id
  if request_ids.isEmpty then ("You have no recent requests.", q)
  else (String.intercalate "\n" ("📋 *Your Requests*\n" :: q.userRequestLines user_id), q)

/-! ## The confirmation gate (`src/mcps/base.py`) -/

/-- Status of an MCP operation result (`MCPResultStatus`). -/
inductive MCPResultStatus
  | SUCCESS
  | ERROR
  | PENDING
  | CANCELLED
  | NEEDS_CONFIRMATION
deriving DecidableEq

/-- Result of an MCP operation (`MCPResult`), restricted to the fields the
confirmation path uses. -/
structure MCPResult where
  status : MCPResultStatus
  message : String
deriving DecidableEq

/-- A pending confirmation entry: the dict stored under the token by
`create_confirmation`. -/
structure PendingEntry where
  action : String
  parameters : List (String × String)
  user_id : String
  channel_id : String
deriving DecidableEq

/-- The confirmation-relevant state of a `BaseMCP` instance: the
`_pending_confirmations` dict, token to entry. -/
structure MCPState where
  pending_confirmations : List (String × PendingEntry) := []
deriving DecidableEq

/-- Dict lookup in `_pending_confirmations`. -/
def lookupEntry (m : List (String × PendingEntry)) (t : String) : Option PendingEntry :=
  (m.find? (fun p => p.1 == t)).map (fun p => p.2)

/-- Dict assignment `self._pending_confirmations[action_id] = {...}`. -/
def setEntry : List (String × PendingEntry) → String → PendingEntry →
    List (String × PendingEntry)
  | [], t, e => [(t, e)]
  | p :: rest, t, e => if p.1 == t then (t, e) :: rest else p :: setEntry rest t e

/-- `BaseMCP.create_confirmation`: store the pending entry under a fresh
token (the uuid is a parameter) and return the needs-confirmation result. -/
def MCPState.create_confirmation (st : MCPState) (action_id : String)
    (action : String) (parameters : List (String × String))
    (user_id channel_id : String) : MCPResult × MCPState :=
  (⟨MCPResultStatus.NEEDS_CONFIRMATION, "confirmation requested"⟩,
   { pending_confirmations :=
      setEntry st.pending_confirmations action_id ⟨action, parameters, user_id, channel_id⟩ })

/-- The signature of the post-approval handler `_execute_confirmed` (which
delegates to the subclass `execute`): it takes the stored action, parameters,
the resolving user and the stored channel, and either returns a result or
raises, which the model records as `Except.error` with the message. -/
def ExecFn : Type :=
  String → List (String × String) → String → String → Except String MCPResult

/-- The `NotFound` outcome of `handle_confirmation`. -/
def expiredResult : MCPResult :=
  ⟨MCPResultStatus.ERROR, "This action has expired or was already processed."⟩

/-- The cancellation outcome of `handle_confirmation`. -/
def cancelledResult : MCPResult :=
  ⟨MCPResultStatus.CANCELLED, "Action cancelled."⟩

/-- `BaseMCP.handle_confirmation` (base.py lines 176-217): unknown token
returns the expired/processed error; otherwise `dict.pop` removes the entry
before the approve/cancel branch acts, so the entry is gone from the
post-state even when the post-approval handler raises. -/
def MCPState.handle_confirmation (exec : ExecFn) (st : MCPState)
    (action_id : String) (confirmed : Bool) (user_id : String) :
    Except String MCPResult × MCPState :=
  match lookupEntry st.pending_confirmations action_id with
  | none => (.ok expiredResult, st)
  | some pending =>
    let st' : MCPState :=
      { pending_confirmations :=
          st.pending_confirmations.filter (fun p => !(p.1 == action_id)) }
    if !confirmed then (.ok cancelledResult, st')
    else (exec pending.action pending.parameters user_id pending.channel_id, st')

/-! ## Reachability of queue states -/

/-- One atomic transition of the queue: one locked section of `submit`,
`cancel`, or either half of `_process_next`.  A submitted request always
comes from `PlaybookRequest.create`, hence arrives with status QUEUED. -/
inductive Step : RequestQueue → RequestQueue → Prop
  | submit {q : RequestQueue} (req : PlaybookRequest)
      (h : req.status = RequestStatus.QUEUED) : Step q (RequestQueue.submit q req).2
  | cancel {q : RequestQueue} (request_id user_id : String) :
      Step q (RequestQueue.cancel q request_id user_id).2
  | dequeue {q : RequestQueue} (now : Nat) :
      Step q (RequestQueue.processNextDequeue q now).2
  | complete {q : RequestQueue} (key : String) (outcome : ExecOutcome) (now : Nat) :
      Step q (RequestQueue.processNextComplete q key outcome now)

/-- Queue states reachable from a freshly initialised queue. -/
inductive Reachable (mc : Nat) : RequestQueue → Prop
  | init : Reachable mc (RequestQueue.init mc)
  | step {q q' : RequestQueue} : Reachable mc q → Step q q' → Reachable mc q'

/-- The state invariant maintained by every locked section of the queue:
dedup keys are unique across the pending structure and the running map, every
running entry is keyed by its request's dedup key and within the concurrency
ceiling, and stored statuses match the collection holding the request (in
particular DUPLICATE is never a stored status). -/
structure QueueInv (q : RequestQueue) : Prop where
  pendKeys : (q.pending.map PlaybookRequest.dedup_key).Nodup
  runKeys : (q.running.map Prod.fst).Nodup
  disj : ∀ k ∈ q.pending.map PlaybookRequest.dedup_key, k ∉ q.running.map Prod.fst
  runMatch : ∀ p ∈ q.running, p.1 = p.2.dedup_key
  runCap : q.running.length ≤ q.max_concurrent
  pendStatus : ∀ r ∈ q.pending, r.status = RequestStatus.QUEUED
  runStatus : ∀ p ∈ q.running, p.2.status = RequestStatus.RUNNING
  compStatus : ∀ r ∈ q.completed, r.status ≠ RequestStatus.DUPLICATE
  allStatus : ∀ p ∈ q.all_requests, p.2.status ≠ RequestStatus.DUPLICATE

/-! ## Substring predicate for message-content claims -/

/-- `a` occurs as a contiguous substring of `b`. -/
def strSub (a b : String) : Prop :=
  a.data <:+: b.data

instance (a b : String) : Decidable (strSub a b) :=
  inferInstanceAs (Decidable (a.data <:+: b.data))

/-! ## Concrete states used by witnesses and counterexamples -/

def reqA : PlaybookRequest :=
  PlaybookRequest.create "a1" "uA" "Alice" "ch" "deploy" "prod" .HIGH 5

def reqB : PlaybookRequest :=
  PlaybookRequest.create "b2" "uB" "Bob" "ch" "backup" "prod" .NORMAL 3

def reqC : PlaybookRequest :=
  PlaybookRequest.create "c3" "uC" "Carol" "ch" "deploy" "prod" .NORMAL 9

/-- The state after submitting `reqA` then `reqB` to a fresh queue. -/
def st1 : RequestQueue := ((RequestQueue.init 3).submit reqA).2

def st2 : RequestQueue := (st1.submit reqB).2

/-- A running request holding the dedup key `deploy:prod`. -/
def rrun : PlaybookRequest :=
  { sort_key := (2, 1)
    id := "x9q4p7w2"
    user_id := "uR"
    user_name := "alice"
    channel_id := "ch"
    playbook := "deploy"
    inventory := "prod"
    priority := .NORMAL
    submitted_at := 1
    started_at := some 2
    status := RequestStatus.RUNNING }

/-- A queue whose running map holds `rrun`. -/
def qRun : RequestQueue :=
  { max_concurrent := 3
    running := [("deploy:prod", rrun)]
    all_requests := [("x9q4p7w2", rrun)] }

/-- A later submission that collides with `rrun` on the dedup key. -/
def creq : PlaybookRequest :=
  PlaybookRequest.create "c9" "uC" "carol" "ch" "deploy" "prod" .NORMAL 10

/-- Requests and a queue state for the requester-history claim: `ra` was
submitted before `rb` and both belong to requester `u`. -/
def ra : PlaybookRequest :=
  { sort_key := (2, 1)
    id := "ra1"
    user_id := "u"
    user_name := "Uma"
    channel_id := "ch"
    playbook := "sync"
    inventory := "dev"
    priority := .NORMAL
    submitted_at := 1
    status := RequestStatus.COMPLETED
    completed_at := some 4 }

def rb : PlaybookRequest :=
  { sort_key := (2, 2)
    id := "rb2"
    user_id := "u"
    user_name := "Uma"
    channel_id := "ch"
    playbook := "sync"
    inventory := "prod"
    priority := .NORMAL
    submitted_at := 2
    status := RequestStatus.QUEUED }

def qUser : RequestQueue :=
  { max_concurrent := 3
    pending := [rb]
    completed := [ra]
    user_requests := [("u", ["ra1", "rb2"])]
    all_requests := [("ra1", ra), ("rb2", rb)] }

/-- A gate state with one pending confirmation under token `tok1`. -/
def stc : MCPState :=
  (MCPState.create_confirmation ⟨[]⟩ "tok1" "sync" [("domain", "all")] "u" "ch").2

/-- A post-approval handler that succeeds. -/
def exf : ExecFn := fun _ _ _ _ => .ok ⟨MCPResultStatus.SUCCESS, "done"⟩

/-! ## A reachable trace that overflows the completed history -/

/-- The i-th request of the overflow trace: distinct ids and dedup keys. -/
def mkBadReq (i : Nat) : PlaybookRequest :=
  PlaybookRequest.create ("id" ++ toString i) "u" "u" "ch" ("p" ++ toString i) "inv" .NORMAL i

/-- Submit `mkBadReq 0 .. n-1` in order. -/
def submitSeq : Nat → RequestQueue → RequestQueue
  | 0, q => q
  | n + 1, q => ((submitSeq n q).submit (mkBadReq n)).2

/-- Cancel `id0 .. id(n-1)` in order, as requester `u`. -/
def cancelSeq : Nat → RequestQueue → RequestQueue
  | 0, q => q
  | n + 1, q => ((cancelSeq n q).cancel ("id" ++ toString n) "u").2

/-- 101 accepted submissions followed by 101 cancellations: every
cancellation appends to the history and none of them trims it. -/
def overflowState : RequestQueue :=
  cancelSeq 101 (submitSeq 101 (RequestQueue.init 3))

/-! ## Theorems -/

theorem keyLe_refl (a : Nat × Nat) : keyLe a a := by
  simp [keyLe]

theorem keyLe_trans {a b c : Nat × Nat} (h₁ : keyLe a b) (h₂ : keyLe b c) : keyLe a c := by
  simp only [keyLe] at *
  omega

theorem keyLe_of_not_keyLe {a b : Nat × Nat} (h : ¬ keyLe a b) : keyLe b a := by
  simp only [keyLe] at *
  omega

theorem popMin_eq_none {l : List PlaybookRequest} : popMin l = none ↔ l = [] := by
  cases l with
  | nil => simp [popMin]
  | cons r rs =>
    simp only [popMin]
    cases h : popMin rs with
    | none => simp
    | some p =>
      obtain ⟨m, rest⟩ := p
      by_cases hk : keyLe r.sort_key m.sort_key <;> simp [hk]

/-- The popped element was an element of the list, and the remainder is the
list with exactly that occurrence removed. -/
theorem popMin_split : ∀ {l : List PlaybookRequest} {m : PlaybookRequest}
    {rest : List PlaybookRequest}, popMin l = some (m, rest) →
    ∃ l₁ l₂, l = l₁ ++ m :: l₂ ∧ rest = l₁ ++ l₂ := by
  intro l
  induction l with
  | nil => intro m rest h; simp [popMin] at h
  | cons r rs ih =>
    intro m rest h
    simp only [popMin] at h
    cases hrs : popMin rs with
    | none =>
      rw [hrs] at h
      have hnil : rs = [] := popMin_eq_none.mp hrs
      simp only [Option.some.injEq, Prod.mk.injEq] at h
      exact ⟨[], [], by simp [hnil, ← h.1, ← h.2]⟩
    | some p =>
      obtain ⟨m', rest'⟩ := p
      rw [hrs] at h
      by_cases hk : keyLe r.sort_key m'.sort_key
      · simp only [hk, if_pos, Option.some.injEq, Prod.mk.injEq] at h
        exact ⟨[], rs, by simp [← h.1, ← h.2]⟩
      · simp only [hk, if_neg, not_false_iff, Option.some.injEq, Prod.mk.injEq] at h
        obtain ⟨l₁, l₂, hl, hr⟩ := ih hrs
        refine ⟨r :: l₁, l₂, ?_, ?_⟩
        · simp [hl, ← h.1]
        · simp [← h.2, hr]

/-- The popped element is minimal in the `keyLe` order. -/
theorem popMin_min : ∀ {l : List PlaybookRequest} {m : PlaybookRequest}
    {rest : List PlaybookRequest}, popMin l = some (m, rest) →
    ∀ x ∈ l, keyLe m.sort_key x.sort_key := by
  intro l
  induction l with
  | nil => intro m rest h; simp [popMin] at h
  | cons r rs ih =>
    intro m rest h x hx
    simp only [popMin] at h
    cases hrs : popMin rs with
    | none =>
      rw [hrs] at h
      have hnil : rs = [] := popMin_eq_none.mp hrs
      simp only [Option.some.injEq, Prod.mk.injEq] at h
      subst hnil
      simp only [List.mem_singleton] at hx
      subst hx
      rw [← h.1]
      exact keyLe_refl _
    | some p =>
      obtain ⟨m', rest'⟩ := p
      rw [hrs] at h
      by_cases hk : keyLe r.sort_key m'.sort_key
      · simp only [hk, if_pos, Option.some.injEq, Prod.mk.injEq] at h
        rw [← h.1]
        rcases List.mem_cons.mp hx with hx | hx
        · subst hx; exact keyLe_refl _
        · exact keyLe_trans hk (ih hrs x hx)
      · simp only [hk, if_neg, not_false_iff, Option.some.injEq, Prod.mk.injEq] at h
        rw [← h.1]
        rcases List.mem_cons.mp hx with hx | hx
        · subst hx; exact keyLe_of_not_keyLe hk
        · exact ih hrs x hx

theorem setReq_mem {arena : List (String × PlaybookRequest)} {i : String}
    {r : PlaybookRequest} {x : String × PlaybookRequest} (hx : x ∈ setReq arena i r) :
    x = (i, r) ∨ x ∈ arena := by
  induction arena with
  | nil => simp [setReq] at hx; simp [hx]
  | cons p rest ih =>
    simp only [setReq] at hx
    by_cases hp : p.1 == i
    · rw [if_pos hp] at hx
      rcases List.mem_cons.mp hx with h | h
      · exact Or.inl h
      · exact Or.inr (List.mem_cons_of_mem _ h)
    · rw [if_neg hp] at hx
      rcases List.mem_cons.mp hx with h | h
      · exact Or.inr (h ▸ List.mem_cons_self _ _)
      · rcases ih h with h' | h'
        · exact Or.inl h'
        · exact Or.inr (List.mem_cons_of_mem _ h')

/-! ## Characterization lemmas for the queue operations -/

theorem submit_rejected_running {q : RequestQueue} {req : PlaybookRequest}
    {rp : String × PlaybookRequest}
    (h : q.running.find? (fun p => p.1 == req.dedup_key) = some rp) :
    q.submit req = ((false, runningDupMessage rp.2 req), q) := by
  simp [RequestQueue.submit, h]

theorem submit_rejected_pending {q : RequestQueue} {req pr : PlaybookRequest}
    (h1 : q.running.find? (fun p => p.1 == req.dedup_key) = none)
    (h2 : q.pending.find? (fun r => r.dedup_key == req.dedup_key) = some pr) :
    q.submit req = ((false, queuedDupMessage pr
      (q.pending.findIdx (fun r => r.dedup_key == req.dedup_key) + 1)), q) := by
  simp [RequestQueue.submit, h1, h2]

theorem submit_accepted {q : RequestQueue} {req : PlaybookRequest}
    (h1 : q.running.find? (fun p => p.1 == req.dedup_key) = none)
    (h2 : q.pending.find? (fun r => r.dedup_key == req.dedup_key) = none) :
    (q.submit req).1.1 = true ∧ (q.submit req).2 = { q with
      pending := q.pending ++ [req]
      all_requests := setReq q.all_requests req.id req
      user_requests := appendUser q.user_requests req.user_id req.id } := by
  simp only [RequestQueue.submit, h1, h2]
  split <;> simp

theorem cancel_not_found {q : RequestQueue} {rid uid : String}
    (h : lookupReq q.all_requests rid = none) :
    q.cancel rid uid = ((false, "Request `" ++ rid ++ "` not found."), q) := by
  simp [RequestQueue.cancel, h]

theorem cancel_wrong_user {q : RequestQueue} {rid uid : String} {r : PlaybookRequest}
    (h : lookupReq q.all_requests rid = some r) (hu : r.user_id ≠ uid) :
    q.cancel rid uid = ((false, "You can only cancel your own requests."), q) := by
  simp [RequestQueue.cancel, h, hu]

theorem cancel_not_queued {q : RequestQueue} {rid uid : String} {r : PlaybookRequest}
    (h : lookupReq q.all_requests rid = some r) (hs : r.status ≠ RequestStatus.QUEUED) :
    (q.cancel rid uid).1.1 = false ∧ (q.cancel rid uid).2 = q := by
  by_cases hu : r.user_id = uid
  · by_cases hr : r.status = RequestStatus.RUNNING
    · simp [RequestQueue.cancel, h, hu, hr]
    · simp [RequestQueue.cancel, h, hu, hr, hs]
  · simp [RequestQueue.cancel, h, hu]

theorem cancel_success {q : RequestQueue} {rid uid : String} {r : PlaybookRequest}
    (h : lookupReq q.all_requests rid = some r)
    (hu : r.user_id = uid) (hs : r.status = RequestStatus.QUEUED) :
    (q.cancel rid uid).1.1 = true ∧ (q.cancel rid uid).2 = { q with
      pending := q.pending.filter (fun x => !(x.id == rid))
      completed := q.completed ++ [{ r with status := RequestStatus.CANCELLED }]
      all_requests := setReq q.all_requests rid
        { r with status := RequestStatus.CANCELLED } } := by
  simp [RequestQueue.cancel, h, hu, hs]

theorem dequeue_at_capacity {q : RequestQueue} {now : Nat}
    (h : q.max_concurrent ≤ q.running.length) :
    q.processNextDequeue now = (.atCapacity, q) := by
  simp [RequestQueue.processNextDequeue, h]

theorem dequeue_empty {q : RequestQueue} {now : Nat}
    (h : ¬ q.max_concurrent ≤ q.running.length) (hp : popMin q.pending = none) :
    q.processNextDequeue now = (.empty, q) := by
  simp [RequestQueue.processNextDequeue, h, hp]

theorem dequeue_dup {q : RequestQueue} {now : Nat} {r : PlaybookRequest}
    {rest : List PlaybookRequest} {p : String × PlaybookRequest}
    (hcap : ¬ q.max_concurrent ≤ q.running.length)
    (hpop : popMin q.pending = some (r, rest))
    (hrun : q.running.find? (fun p => p.1 == r.dedup_key) = some p) :
    q.processNextDequeue now =
      (.duplicateDiscarded { r with status := RequestStatus.DUPLICATE }, { q with
        pending := rest
        completed := q.completed ++ [{ r with status := RequestStatus.DUPLICATE }]
        all_requests := setReq q.all_requests r.id
          { r with status := RequestStatus.DUPLICATE } }) := by
  simp [RequestQueue.processNextDequeue, hcap, hpop, hrun]

theorem dequeue_start {q : RequestQueue} {now : Nat} {r : PlaybookRequest}
    {rest : List PlaybookRequest}
    (hcap : ¬ q.max_concurrent ≤ q.running.length)
    (hpop : popMin q.pending = some (r, rest))
    (hrun : q.running.find? (fun p => p.1 == r.dedup_key) = none) :
    q.processNextDequeue now =
      (.started { r with status := RequestStatus.RUNNING, started_at := some now },
       { q with
          pending := rest
          running := q.running ++ [(r.dedup_key,
            { r with status := RequestStatus.RUNNING, started_at := some now })]
          all_requests := setReq q.all_requests r.id
            { r with status := RequestStatus.RUNNING, started_at := some now } }) := by
  have hrun' : q.running.find? (fun p => p.1 == r.playbook ++ ":" ++ r.inventory) = none := by
    simpa [PlaybookRequest.dedup_key] using hrun
  simp [RequestQueue.processNextDequeue, hcap, hpop, hrun, hrun', PlaybookRequest.dedup_key]

theorem complete_no_key {q : RequestQueue} {key : String} {outcome : ExecOutcome} {now : Nat}
    (h : q.running.find? (fun p => p.1 == key) = none) :
    q.processNextComplete key outcome now = q := by
  simp [RequestQueue.processNextComplete, h]

theorem complete_found {q : RequestQueue} {key : String} {outcome : ExecOutcome} {now : Nat}
    {p : String × PlaybookRequest}
    (h : q.running.find? (fun pr => pr.1 == key) = some p) :
    q.processNextComplete key outcome now = { q with
      running := q.running.filter (fun pr => !(pr.1 == key))
      completed := trimHistory (q.completed ++ [completionRecord p.2 outcome now])
      all_requests := setReq q.all_requests (completionRecord p.2 outcome now).id
        (completionRecord p.2 outcome now) } := by
  simp [RequestQueue.processNextComplete, h]

/-! ## The queue invariant -/

/-- Conversion between `find?`-style dict membership on the running map and
membership of the key list. -/
theorem find_key_none {l : List (String × PlaybookRequest)} {k : String} :
    l.find? (fun p => p.1 == k) = none ↔ k ∉ l.map Prod.fst := by
  rw [List.find?_eq_none]
  constructor
  · intro h hk
    obtain ⟨p, hp, hpk⟩ := List.mem_map.mp hk
    exact h p hp (by simp [hpk])
  · intro h p hp hpk
    exact h (List.mem_map.mpr ⟨p, hp, by simpa using hpk⟩)

/-- Same conversion for the dedup scan of the pending list. -/
theorem find_dedup_none {l : List PlaybookRequest} {k : String} :
    l.find? (fun r => r.dedup_key == k) = none ↔ k ∉ l.map PlaybookRequest.dedup_key := by
  rw [List.find?_eq_none]
  constructor
  · intro h hk
    obtain ⟨r, hr, hrk⟩ := List.mem_map.mp hk
    exact h r hr (by simp [hrk])
  · intro h r hr hrk
    exact h (List.mem_map.mpr ⟨r, hr, by simpa using hrk⟩)

theorem queueInv_init (mc : Nat) : QueueInv (RequestQueue.init mc) := by
  constructor <;> simp [RequestQueue.init]

theorem queueInv_submit {q : RequestQueue} {req : PlaybookRequest}
    (inv : QueueInv q) (hst : req.status = RequestStatus.QUEUED) :
    QueueInv (q.submit req).2 := by
  cases h1 : q.running.find? (fun p => p.1 == req.dedup_key) with
  | some rp => rw [submit_rejected_running h1]; exact inv
  | none =>
    cases h2 : q.pending.find? (fun r => r.dedup_key == req.dedup_key) with
    | some pr => rw [submit_rejected_pending h1 h2]; exact inv
    | none =>
      rw [(submit_accepted h1 h2).2]
      have hknotpend : req.dedup_key ∉ q.pending.map PlaybookRequest.dedup_key :=
        find_dedup_none.mp h2
      have hknotrun : req.dedup_key ∉ q.running.map Prod.fst := find_key_none.mp h1
      refine ⟨?_, inv.runKeys, ?_, inv.runMatch, inv.runCap, ?_, inv.runStatus,
        inv.compStatus, ?_⟩
      · rw [List.map_append, List.nodup_append]
        refine ⟨inv.pendKeys, by simp, ?_⟩
        intro a ha ha'
        simp only [List.map_cons, List.map_nil, List.mem_singleton] at ha'
        exact hknotpend (ha' ▸ ha)
      · intro k hk
        rw [List.map_append] at hk
        rcases List.mem_append.mp hk with hk | hk
        · exact inv.disj k hk
        · simp only [List.map_cons, List.map_nil, List.mem_singleton] at hk
          exact hk ▸ hknotrun
      · intro r hr
        rcases List.mem_append.mp hr with hr | hr
        · exact inv.pendStatus r hr
        · simp only [List.mem_singleton] at hr
          exact hr ▸ hst
      · intro p hp
        rcases setReq_mem hp with hp | hp
        · rw [hp]
          simp [hst]
        · exact inv.allStatus p hp

theorem queueInv_cancel {q : RequestQueue} {rid uid : String}
    (inv : QueueInv q) : QueueInv (q.cancel rid uid).2 := by
  cases h : lookupReq q.all_requests rid with
  | none => rw [cancel_not_found h]; exact inv
  | some r =>
    by_cases hu : r.user_id = uid
    · by_cases hs : r.status = RequestStatus.QUEUED
      · rw [(cancel_success h hu hs).2]
        have hsub : List.Sublist (q.pending.filter (fun x => !(x.id == rid))) q.pending :=
          List.filter_sublist q.pending
        refine ⟨inv.pendKeys.sublist (hsub.map PlaybookRequest.dedup_key), inv.runKeys,
          ?_, inv.runMatch, inv.runCap, ?_, inv.runStatus, ?_, ?_⟩
        · intro k hk
          exact inv.disj k ((hsub.map PlaybookRequest.dedup_key).mem hk)
        · intro x hx
          exact inv.pendStatus x (hsub.mem hx)
        · intro x hx
          rcases List.mem_append.mp hx with hx | hx
          · exact inv.compStatus x hx
          · simp only [List.mem_singleton] at hx
            rw [hx]
            simp
        · intro p hp
          rcases setReq_mem hp with hp | hp
          · rw [hp]; simp
          · exact inv.allStatus p hp
      · rw [(cancel_not_queued h hs).2]; exact inv
    · rw [cancel_wrong_user h hu]; exact inv

theorem queueInv_dequeue {q : RequestQueue} {now : Nat}
    (inv : QueueInv q) : QueueInv (q.processNextDequeue now).2 := by
  by_cases hcap : q.max_concurrent ≤ q.running.length
  · rw [dequeue_at_capacity hcap]; exact inv
  · cases hpop : popMin q.pending with
    | none => rw [dequeue_empty hcap hpop]; exact inv
    | some pr =>
      obtain ⟨r, rest⟩ := pr
      obtain ⟨l₁, l₂, hl, hrst⟩ := popMin_split hpop
      have hrmem : r ∈ q.pending := by rw [hl]; simp
      have hkeymem : r.dedup_key ∈ q.pending.map PlaybookRequest.dedup_key :=
        List.mem_map_of_mem _ hrmem
      have hknotrun : r.dedup_key ∉ q.running.map Prod.fst := inv.disj _ hkeymem
      have hfind : q.running.find? (fun p => p.1 == r.dedup_key) = none :=
        find_key_none.mpr hknotrun
      rw [dequeue_start hcap hpop hfind]
      have hsub : List.Sublist rest q.pending := by
        rw [hrst, hl]
        exact (List.sublist_cons_self r l₂).append_left l₁
      have hpendmid : q.pending.map PlaybookRequest.dedup_key =
          l₁.map PlaybookRequest.dedup_key ++
            r.dedup_key :: l₂.map PlaybookRequest.dedup_key := by
        rw [hl]; simp
      have hknotrest : r.dedup_key ∉ rest.map PlaybookRequest.dedup_key := by
        have := inv.pendKeys
        rw [hpendmid, List.nodup_middle, List.nodup_cons] at this
        rw [hrst, List.map_append]
        exact this.1
      refine ⟨?_, ?_, ?_, ?_, ?_, ?_, ?_, inv.compStatus, ?_⟩
      · exact inv.pendKeys.sublist (hsub.map PlaybookRequest.dedup_key)
      · rw [List.map_append, List.nodup_append]
        refine ⟨inv.runKeys, by simp, ?_⟩
        intro a ha ha'
        simp only [List.map_cons, List.map_nil, List.mem_singleton] at ha'
        rw [ha'] at ha
        exact hknotrun (by simpa [PlaybookRequest.dedup_key] using ha)
      · intro k hk
        rw [List.map_append]
        intro hmem
        rcases List.mem_append.mp hmem with hmem | hmem
        · exact inv.disj k ((hsub.map PlaybookRequest.dedup_key).mem hk) hmem
        · simp only [List.map_cons, List.map_nil, List.mem_singleton] at hmem
          rw [hmem] at hk
          exact hknotrest (by simpa [PlaybookRequest.dedup_key] using hk)
      · intro p hp
        rcases List.mem_append.mp hp with hp | hp
        · exact inv.runMatch p hp
        · simp only [List.mem_singleton] at hp
          rw [hp]
          simp [PlaybookRequest.dedup_key]
      · rw [List.length_append]
        simp only [List.length_singleton]
        omega
      · intro x hx
        exact inv.pendStatus x (hsub.mem hx)
      · intro p hp
        rcases List.mem_append.mp hp with hp | hp
        · exact inv.runStatus p hp
        · simp only [List.mem_singleton] at hp
          rw [hp]
      · intro p hp
        rcases setReq_mem hp with hp | hp
        · rw [hp]; simp
        · exact inv.allStatus p hp

theorem trimHistory_sublist (l : List PlaybookRequest) :
    List.Sublist (trimHistory l) l := by
  unfold trimHistory
  split
  · exact List.drop_sublist _ l
  · exact List.Sublist.refl l

theorem completionRecord_status {r : PlaybookRequest} {o : ExecOutcome} {n : Nat} :
    (completionRecord r o n).status = RequestStatus.COMPLETED ∨
    (completionRecord r o n).status = RequestStatus.FAILED := by
  cases o <;> simp [completionRecord]

theorem queueInv_complete {q : RequestQueue} {key : String} {outcome : ExecOutcome}
    {now : Nat} (inv : QueueInv q) : QueueInv (q.processNextComplete key outcome now) := by
  cases hfind : q.running.find? (fun p => p.1 == key) with
  | none => rw [complete_no_key hfind]; exact inv
  | some p =>
    rw [complete_found hfind]
    have hsub : List.Sublist (q.running.filter (fun pr => !(pr.1 == key))) q.running :=
      List.filter_sublist q.running
    refine ⟨inv.pendKeys, inv.runKeys.sublist (hsub.map Prod.fst), ?_, ?_, ?_, inv.pendStatus,
      ?_, ?_, ?_⟩
    · intro k hk hmem
      exact inv.disj k hk ((hsub.map Prod.fst).mem hmem)
    · intro x hx
      exact inv.runMatch x (hsub.mem hx)
    · exact le_trans (List.length_filter_le _ _) inv.runCap
    · intro x hx
      exact inv.runStatus x (hsub.mem hx)
    · intro x hx
      have hx' := (trimHistory_sublist _).mem hx
      rcases List.mem_append.mp hx' with hx' | hx'
      · exact inv.compStatus x hx'
      · simp only [List.mem_singleton] at hx'
        rw [hx']
        rcases completionRecord_status (r := p.2) (o := outcome) (n := now) with h | h <;>
          simp [h]
    · intro x hx
      rcases setReq_mem hx with hx | hx
      · rw [hx]
        rcases completionRecord_status (r := p.2) (o := outcome) (n := now) with h | h <;>
          simp [h]
      · exact inv.allStatus x hx

/-- Every reachable queue state satisfies the invariant. -/
theorem reachable_queueInv {mc : Nat} {q : RequestQueue} (h : Reachable mc q) :
    QueueInv q := by
  induction h with
  | init => exact queueInv_init mc
  | step _ hs ih =>
    cases hs with
    | submit req hst => exact queueInv_submit ih hst
    | cancel rid uid => exact queueInv_cancel ih
    | dequeue now => exact queueInv_dequeue ih
    | complete key outcome now => exact queueInv_complete ih

theorem strSub_middle (a x y : String) : strSub a (x ++ a ++ y) :=
  ⟨x.data, y.data, rfl⟩

theorem strSub_left (x a : String) : strSub a (x ++ a) := by
  refine ⟨x.data, [], ?_⟩
  simp [String.data_append]

theorem strSub_extend {a b : String} (x : String) (h : strSub a b) : strSub a (b ++ x) := by
  obtain ⟨s, t, ht⟩ := h
  refine ⟨s, t ++ x.data, ?_⟩
  rw [String.data_append, ← ht]
  simp [List.append_assoc]

/-! ## Helper lemmas about history trimming and bounded views -/

theorem trimHistory_length (l : List PlaybookRequest) :
    (trimHistory l).length ≤ maxHistory := by
  unfold trimHistory
  split
  · rw [List.length_drop]
    omega
  · omega

theorem trimHistory_getLast (l : List PlaybookRequest) (a : PlaybookRequest) :
    (trimHistory (l ++ [a])).getLast? = some a := by
  unfold trimHistory
  split
  · rw [List.drop_append_eq_append_drop]
    have h1 : (l ++ [a]).length - maxHistory - l.length = 0 := by
      simp only [List.length_append, List.length_singleton]
      unfold maxHistory
      omega
    rw [h1]
    simp only [List.drop_zero]
    exact List.getLast?_concat _
  · exact List.getLast?_concat _

theorem takeLast_length_le (n : Nat) (l : List String) : (takeLast n l).length ≤ n := by
  unfold takeLast
  rw [List.length_drop]
  omega

theorem takeLast_append_exact {l₁ l₂ : List String} (h : l₂.length = 10) :
    takeLast 10 (l₁ ++ l₂) = l₂ := by
  unfold takeLast
  rw [List.length_append, h]
  have h1 : l₁.length + 10 - 10 = l₁.length := by omega
  rw [h1, List.drop_append_eq_append_drop, List.drop_length]
  simp

/-! ## Helper lemmas about the confirmation gate -/

theorem lookupEntry_filter_none (m : List (String × PendingEntry)) (t : String) :
    lookupEntry (m.filter (fun p => !(p.1 == t))) t = none := by
  unfold lookupEntry
  have hfind : (m.filter (fun p => !(p.1 == t))).find? (fun p => p.1 == t) = none := by
    rw [List.find?_eq_none]
    intro x hx
    have hx' := (List.mem_filter.mp hx).2
    simp only [Bool.not_eq_eq_eq_not, Bool.not_true] at hx'
    simp [hx']
  rw [hfind]
  rfl

theorem handle_confirmation_unknown {ex : ExecFn} {st : MCPState} {t : String}
    {c : Bool} {u : String} (h : lookupEntry st.pending_confirmations t = none) :
    MCPState.handle_confirmation ex st t c u = (.ok expiredResult, st) := by
  simp [MCPState.handle_confirmation, h]

theorem handle_confirmation_found_state {ex : ExecFn} {st : MCPState} {t : String}
    {c : Bool} {u : String} {e : PendingEntry}
    (h : lookupEntry st.pending_confirmations t = some e) :
    (MCPState.handle_confirmation ex st t c u).2 =
      ⟨st.pending_confirmations.filter (fun p => !(p.1 == t))⟩ := by
  simp only [MCPState.handle_confirmation, h]
  cases c <;> simp

theorem reach_st2 : Reachable 3 st2 :=
  Reachable.step (Reachable.step Reachable.init (Step.submit reqA rfl))
    (Step.submit reqB rfl)

theorem reachable_submitSeq {mc : Nat} {q : RequestQueue} (h : Reachable mc q) :
    ∀ n, Reachable mc (submitSeq n q) := by
  intro n
  induction n with
  | zero => exact h
  | succ n ih => exact Reachable.step ih (Step.submit (mkBadReq n) rfl)

theorem reachable_cancelSeq {mc : Nat} {q : RequestQueue} (h : Reachable mc q) :
    ∀ n, Reachable mc (cancelSeq n q) := by
  intro n
  induction n with
  | zero => exact h
  | succ n ih => exact Reachable.step ih (Step.cancel ("id" ++ toString n) "u")

/-! ## Claim theorems -/

/-- C1: in every reachable queue state the dedup keys of QUEUED and RUNNING
requests are pairwise distinct (at most one holder per key), and a `submit`
whose request shares a dedup key with any currently queued or running request
returns accepted=false and leaves the whole state — pending queue, running
map, history, id index and per-requester index — unchanged. -/
theorem submit_dedup_exclusive (mc : Nat) (q : RequestQueue) (h : Reachable mc q) :
    (q.pending.map PlaybookRequest.dedup_key ++ q.running.map Prod.fst).Nodup ∧
    ∀ req : PlaybookRequest,
      ((∃ r ∈ q.pending, r.dedup_key = req.dedup_key) ∨
       (∃ p ∈ q.running, p.1 = req.dedup_key)) →
      (q.submit req).1.1 = false ∧ (q.submit req).2 = q := by
  have inv := reachable_queueInv h
  constructor
  · rw [List.nodup_append]
    exact ⟨inv.pendKeys, inv.runKeys, fun a ha => inv.disj a ha⟩
  · intro req hdup
    cases h1 : q.running.find? (fun p => p.1 == req.dedup_key) with
    | some rp =>
      rw [submit_rejected_running h1]
      exact ⟨rfl, rfl⟩
    | none =>
      cases h2 : q.pending.find? (fun r => r.dedup_key == req.dedup_key) with
      | some pr =>
        rw [submit_rejected_pending h1 h2]
        exact ⟨rfl, rfl⟩
      | none =>
        exfalso
        rcases hdup with ⟨r, hr, hk⟩ | ⟨p, hp, hk⟩
        · exact find_dedup_none.mp h2 (List.mem_map.mpr ⟨r, hr, hk⟩)
        · exact find_key_none.mp h1 (List.mem_map.mpr ⟨p, hp, hk⟩)

theorem submit_dedup_exclusive_witness :
    (st2.submit reqC).1.1 = false ∧ (st2.submit reqC).2 = st2 :=
  (submit_dedup_exclusive 3 st2 reach_st2).2 reqC (Or.inl ⟨reqA, by decide, by decide⟩)

/-- C2: in every reachable state the running map holds at most
`max_concurrent` requests; a worker tick at or above the ceiling dequeues
nothing and changes nothing, and neither `submit` nor `cancel` ever adds to
the running map. -/
theorem running_within_ceiling (mc : Nat) (q : RequestQueue) (h : Reachable mc q) :
    q.running.length ≤ q.max_concurrent ∧
    (∀ t : Nat, q.max_concurrent ≤ q.running.length →
      q.processNextDequeue t = (DequeueResult.atCapacity, q)) ∧
    (∀ req : PlaybookRequest, ((q.submit req).2).running = q.running) ∧
    (∀ rid uid : String, ((q.cancel rid uid).2).running = q.running) := by
  have inv := reachable_queueInv h
  refine ⟨inv.runCap, fun t hc => dequeue_at_capacity hc, ?_, ?_⟩
  · intro req
    cases h1 : q.running.find? (fun p => p.1 == req.dedup_key) with
    | some rp => rw [submit_rejected_running h1]
    | none =>
      cases h2 : q.pending.find? (fun r => r.dedup_key == req.dedup_key) with
      | some pr => rw [submit_rejected_pending h1 h2]
      | none => rw [(submit_accepted h1 h2).2]
  · intro rid uid
    cases hc : lookupReq q.all_requests rid with
    | none => rw [cancel_not_found hc]
    | some r =>
      by_cases hu : r.user_id = uid
      · by_cases hs : r.status = RequestStatus.QUEUED
        · rw [(cancel_success hc hu hs).2]
        · rw [(cancel_not_queued hc hs).2]
      · rw [cancel_wrong_user hc hu]

theorem running_within_ceiling_witness : st2.running.length ≤ st2.max_concurrent :=
  (running_within_ceiling 3 st2 reach_st2).1

/-- C3: when capacity allows, the worker pops a pending request that is
minimal in the `(priority value, submittedAt)` order; in particular a request
`b` is never popped while a strictly smaller request `a` (lower priority
value, or equal priority and earlier submission) is still queued, and `b`
stays in the pending structure of the post-tick state.  The sort-key
hypotheses record what `PlaybookRequest.create` embeds into `sort_key`. -/
theorem dequeue_priority_order (q : RequestQueue) (t : Nat) (a b : PlaybookRequest)
    (hcap : q.running.length < q.max_concurrent)
    (ha : a ∈ q.pending) (hb : b ∈ q.pending)
    (hka : a.sort_key = (a.priority.value, a.submitted_at))
    (hkb : b.sort_key = (b.priority.value, b.submitted_at))
    (hab : a.priority.value < b.priority.value ∨
      (a.priority.value = b.priority.value ∧ a.submitted_at < b.submitted_at)) :
    ∃ m rest, popMin q.pending = some (m, rest) ∧
      (∀ x ∈ q.pending, keyLe m.sort_key x.sort_key) ∧
      m ≠ b ∧ b ∈ rest ∧ (q.processNextDequeue t).2.pending = rest := by
  cases hpop : popMin q.pending with
  | none =>
    rw [popMin_eq_none.mp hpop] at ha
    exact absurd ha (List.not_mem_nil a)
  | some pr =>
    obtain ⟨m, rest⟩ := pr
    have hmin := popMin_min hpop
    have hmb : m ≠ b := by
      intro he
      have h1 : keyLe m.sort_key a.sort_key := hmin a ha
      rw [he, hka, hkb] at h1
      simp only [keyLe] at h1
      omega
    have hbrest : b ∈ rest := by
      obtain ⟨l₁, l₂, hl, hrst⟩ := popMin_split hpop
      rw [hl] at hb
      rw [hrst]
      rcases List.mem_append.mp hb with hb' | hb'
      · exact List.mem_append.mpr (Or.inl hb')
      · rcases List.mem_cons.mp hb' with hb'' | hb''
        · exact absurd hb''.symm hmb
        · exact List.mem_append.mpr (Or.inr hb'')
    have hcap' : ¬ q.max_concurrent ≤ q.running.length := by omega
    refine ⟨m, rest, rfl, hmin, hmb, hbrest, ?_⟩
    cases hrun : q.running.find? (fun p => p.1 == m.dedup_key) with
    | some p =>
      rw [dequeue_dup hcap' hpop hrun]
    | none =>
      rw [dequeue_start hcap' hpop hrun]

theorem dequeue_priority_order_witness :
    (st2.processNextDequeue 7).2.pending = [reqB] := by
  obtain ⟨m, rest, h1, -, -, -, h5⟩ :=
    dequeue_priority_order st2 7 reqA reqB (by decide) (by decide) (by decide)
      rfl rfl (by decide)
  have hpop : popMin st2.pending = some (reqA, [reqB]) := by decide
  rw [hpop] at h1
  simp only [Option.some.injEq, Prod.mk.injEq] at h1
  rw [h5, ← h1.2]

/-- C4: confirmation tokens are single-use.  Resolving a token with no
pending entry (never created, or already resolved) returns the
expired-or-already-processed error and changes nothing; after any resolution
the token is absent from the pending map, so a second resolution — with
either `approved` value — returns that same error; and the post-state does
not depend on the approved flag or on the post-approval handler, because the
entry is removed before the approve/cancel branch acts (even a raising
handler leaves the entry gone). -/
theorem confirmation_single_use (e1 e2 : ExecFn) (st : MCPState) (t : String)
    (c1 c2 : Bool) (u1 u2 : String) :
    (lookupEntry st.pending_confirmations t = none →
      MCPState.handle_confirmation e1 st t c1 u1 = (.ok expiredResult, st)) ∧
    lookupEntry (MCPState.handle_confirmation e1 st t c1 u1).2.pending_confirmations t
      = none ∧
    MCPState.handle_confirmation e2 (MCPState.handle_confirmation e1 st t c1 u1).2 t c2 u2
      = (.ok expiredResult, (MCPState.handle_confirmation e1 st t c1 u1).2) ∧
    (MCPState.handle_confirmation e1 st t c1 u1).2
      = (MCPState.handle_confirmation e2 st t c2 u2).2 := by
  have hgone : lookupEntry (MCPState.handle_confirmation e1 st t c1 u1).2.pending_confirmations t
      = none := by
    cases hl : lookupEntry st.pending_confirmations t with
    | none => rw [handle_confirmation_unknown hl]; exact hl
    | some e => rw [handle_confirmation_found_state hl]; exact lookupEntry_filter_none _ _
  refine ⟨fun hl => handle_confirmation_unknown hl, hgone,
    handle_confirmation_unknown hgone, ?_⟩
  cases hl : lookupEntry st.pending_confirmations t with
  | none =>
    rw [handle_confirmation_unknown hl, handle_confirmation_unknown hl]
  | some e =>
    rw [handle_confirmation_found_state hl, handle_confirmation_found_state hl]

theorem confirmation_single_use_witness :
    MCPState.handle_confirmation exf
        (MCPState.handle_confirmation exf stc "tok1" true "u").2 "tok1" false "u"
      = (.ok expiredResult, (MCPState.handle_confirmation exf stc "tok1" true "u").2) :=
  (confirmation_single_use exf exf stc "tok1" true false "u" "u").2.2.1

/-- C5: when the executor raises while a request is running, the completion
step records FAILED with the exception message as `error`, stamps
`completedAt`, removes the dedup key from the running map (strictly shrinking
it), and appends the failed request to the history; the exception is absorbed
by the total transition of the model, mirroring the `except` handler that keeps
the worker loop alive. -/
theorem executor_exception_failed (q : RequestQueue) (k e : String) (t : Nat)
    (p : String × PlaybookRequest)
    (h : q.running.find? (fun pr => pr.1 == k) = some p) :
    (completionRecord p.2 (.exn e) t).status = RequestStatus.FAILED ∧
    (completionRecord p.2 (.exn e) t).error = some e ∧
    (completionRecord p.2 (.exn e) t).completed_at = some t ∧
    (completionRecord p.2 (.exn e) t).id = p.2.id ∧
    (q.processNextComplete k (.exn e) t).completed.getLast?
      = some (completionRecord p.2 (.exn e) t) ∧
    (q.processNextComplete k (.exn e) t).running.find? (fun pr => pr.1 == k) = none ∧
    (q.processNextComplete k (.exn e) t).running.length < q.running.length := by
  refine ⟨rfl, rfl, rfl, rfl, ?_, ?_, ?_⟩
  · rw [complete_found h]
    exact trimHistory_getLast _ _
  · rw [complete_found h]
    rw [List.find?_eq_none]
    intro x hx
    have hx' := (List.mem_filter.mp hx).2
    simp only [Bool.not_eq_eq_eq_not, Bool.not_true] at hx'
    simp [hx']
  · rw [complete_found h]
    refine List.length_filter_lt_length_iff_exists.mpr ⟨p, List.mem_of_find?_eq_some h, ?_⟩
    have hp := List.find?_some h
    simp [hp]

theorem executor_exception_failed_witness :
    (qRun.processNextComplete "deploy:prod" (.exn "boom") 9).completed.getLast?
        = some (completionRecord rrun (.exn "boom") 9) ∧
    (qRun.processNextComplete "deploy:prod" (.exn "boom") 9).running.length
        < qRun.running.length :=
  ⟨(executor_exception_failed qRun "deploy:prod" "boom" 9 ("deploy:prod", rrun)
      (by decide)).2.2.2.2.1,
   (executor_exception_failed qRun "deploy:prod" "boom" 9 ("deploy:prod", rrun)
      (by decide)).2.2.2.2.2.2⟩

/-- C6: `cancel` fails and changes no state when the id is unknown, when the
requester is not the owner, or when the request is not QUEUED (which covers
RUNNING and every terminal state); on success the request is removed from the
pending structure, marked CANCELLED, and appended to the history (and the id
index sees the CANCELLED status through the shared object). -/
theorem cancel_semantics (q : RequestQueue) (rid uid : String) :
    (lookupReq q.all_requests rid = none →
      (q.cancel rid uid).1.1 = false ∧ (q.cancel rid uid).2 = q) ∧
    (∀ r, lookupReq q.all_requests rid = some r → r.user_id ≠ uid →
      (q.cancel rid uid).1.1 = false ∧ (q.cancel rid uid).2 = q) ∧
    (∀ r, lookupReq q.all_requests rid = some r → r.status ≠ RequestStatus.QUEUED →
      (q.cancel rid uid).1.1 = false ∧ (q.cancel rid uid).2 = q) ∧
    (∀ r, lookupReq q.all_requests rid = some r → r.user_id = uid →
      r.status = RequestStatus.QUEUED →
      (q.cancel rid uid).1.1 = true ∧
      (q.cancel rid uid).2 = { q with
        pending := q.pending.filter (fun x => !(x.id == rid))
        completed := q.completed ++ [{ r with status := RequestStatus.CANCELLED }]
        all_requests := setReq q.all_requests rid
          { r with status := RequestStatus.CANCELLED } }) := by
  refine ⟨?_, ?_, ?_, ?_⟩
  · intro h
    rw [cancel_not_found h]
    exact ⟨rfl, rfl⟩
  · intro r h hu
    rw [cancel_wrong_user h hu]
    exact ⟨rfl, rfl⟩
  · intro r h hs
    exact cancel_not_queued h hs
  · intro r h hu hs
    exact cancel_success h hu hs

theorem cancel_semantics_witness :
    (st2.cancel "zz" "uA").1.1 = false ∧ (st2.cancel "zz" "uA").2 = st2 :=
  (cancel_semantics st2 "zz" "uA").1 (by decide)

set_option maxRecDepth 4000 in
/-- C7 counterexample: the claim requires the running-duplicate rejection
message to identify the running holder by its id, but the message built by
`submit` (request_queue.py lines 191-199) never includes `running_req.id`:
for the holder `rrun` with id `x9q4p7w2` the rejection message does not
contain that id. -/
theorem runningDup_message_omits_id :
    (qRun.submit creq).1.1 = false ∧ ¬ strSub "x9q4p7w2" (qRun.submit creq).1.2 := by
  constructor
  · decide
  · decide

/-- C7 amended: the running-duplicate rejection message identifies the
holder by its requester (`@user_name`) and by its current job reference
(the job id, or the `starting...` placeholder) — but not by its request id. -/
theorem runningDup_message_contents (rr rq : PlaybookRequest) :
    strSub rr.user_name (runningDupMessage rr rq) ∧
    strSub (jobRefDisplay rr.job_id) (runningDupMessage rr rq) := by
  constructor
  · unfold runningDupMessage
    exact strSub_extend _ (strSub_extend _ (strSub_extend _ (strSub_extend _
      (strSub_extend _ (strSub_left _ _)))))
  · unfold runningDupMessage
    exact strSub_extend _ (strSub_extend _ (strSub_extend _ (strSub_left _ _)))

set_option maxRecDepth 10000 in
/-- C8 counterexample: the completed history is only trimmed on the worker's
completion path; `cancel` appends without trimming, so a reachable state —
101 accepted submissions each later cancelled — carries a history of 101
entries, exceeding the configured bound of 100. -/
theorem history_bound_violated :
    Reachable 3 overflowState ∧ maxHistory < overflowState.completed.length := by
  constructor
  · exact reachable_cancelSeq (reachable_submitSeq Reachable.init 101) 101
  · decide

/-- C8 amended: the bound does hold after the worker's completion step — the
trim there always leaves at most `_max_history = 100` entries — while the
appends made by `cancel` and by the worker's duplicate-discard path do not
trim, so only completion re-establishes the bound. -/
theorem history_trimmed_on_completion (q : RequestQueue) (k : String)
    (o : ExecOutcome) (t : Nat) (p : String × PlaybookRequest)
    (h : q.running.find? (fun pr => pr.1 == k) = some p) :
    (q.processNextComplete k o t).completed.length ≤ maxHistory := by
  rw [complete_found h]
  exact trimHistory_length _

theorem history_trimmed_on_completion_witness :
    (qRun.processNextComplete "deploy:prod" (.ok "done" (some 7)) 9).completed.length
      ≤ maxHistory :=
  history_trimmed_on_completion qRun "deploy:prod" (.ok "done" (some 7)) 9
    ("deploy:prod", rrun) (by decide)

/-- C9: in every reachable state, no request stored in the pending structure,
the running map, the history or the id index has the stored status DUPLICATE:
the dedup invariant makes the worker's re-validation branch (the only place
that would store DUPLICATE on an accepted request) unreachable, so DUPLICATE
remains an admission-time rejection outcome only. -/
theorem no_stored_duplicate (mc : Nat) (q : RequestQueue) (h : Reachable mc q) :
    (∀ r ∈ q.pending, r.status ≠ RequestStatus.DUPLICATE) ∧
    (∀ p ∈ q.running, p.2.status ≠ RequestStatus.DUPLICATE) ∧
    (∀ r ∈ q.completed, r.status ≠ RequestStatus.DUPLICATE) ∧
    (∀ p ∈ q.all_requests, p.2.status ≠ RequestStatus.DUPLICATE) := by
  have inv := reachable_queueInv h
  refine ⟨?_, ?_, inv.compStatus, inv.allStatus⟩
  · intro r hr
    rw [inv.pendStatus r hr]
    simp
  · intro p hp
    rw [inv.runStatus p hp]
    simp

theorem no_stored_duplicate_witness : reqA.status ≠ RequestStatus.DUPLICATE :=
  (no_stored_duplicate 3 st2 reach_st2).1 reqA (by decide)

/-- C10 counterexample: the claim requires `requesterHistory` to render the
requester's requests most-recent first, but `get_user_requests` iterates
`request_ids[-10:]` in stored order, which is oldest first: for requester `u`
with `ra` (submitted at 1) recorded before `rb` (submitted at 2), the
rendered lines put `ra` first — not the most-recent-first order. -/
theorem user_history_not_recent_first :
    qUser.userRequestLines "u"
        = [ra.to_slack_message, rb.to_slack_message] ∧
    ra.to_slack_message ≠ rb.to_slack_message ∧
    qUser.userRequestLines "u"
        ≠ [rb.to_slack_message, ra.to_slack_message] := by
  refine ⟨by decide, by decide, by decide⟩

/-- C10 amended: `get_user_requests` renders at most the last 10 ids of the
requester's index — exactly the final block of 10 when the index is longer —
each resolved to its current status, in stored (oldest-first) order, and it
mutates no queue state. -/
theorem get_user_requests_bounded_readonly (q : RequestQueue) (uid : String) :
    (q.userRequestLines uid).length ≤ 10 ∧
    (q.get_user_requests uid).2 = q ∧
    (∀ l₁ l₂, lookupUser q.user_requests uid = l₁ ++ l₂ → l₂.length = 10 →
      q.userRequestLines uid =
        (l₂.filterMap (lookupReq q.all_requests)).map PlaybookRequest.to_slack_message) := by
  refine ⟨?_, ?_, ?_⟩
  · unfold RequestQueue.userRequestLines
    rw [List.length_map]
    exact le_trans (List.length_filterMap_le _ _) (takeLast_length_le _ _)
  · cases hm : (lookupUser q.user_requests uid).isEmpty <;>
      simp [RequestQueue.get_user_requests, hm]
  · intro l₁ l₂ hsplit hlen
    unfold RequestQueue.userRequestLines
    rw [hsplit, takeLast_append_exact hlen]

theorem get_user_requests_bounded_readonly_witness :
    (qUser.userRequestLines "u").length ≤ 10 :=
  (get_user_requests_bounded_readonly qUser "u").1
